import Mathlib

/-!
Verification of the domain-search repository: a shallow embedding of the
server route handlers (`/api/search`) and the client search coordinator
(`src/app/page.tsx`), with theorems settling the frozen claims.

JavaScript strings are embedded as `List Char`.  Regex-based replacements
from the source are embedded as the corresponding list transformations.
-/

/-- A JavaScript string, embedded as its list of characters. -/
abbrev JStr := List Char

/-- Coerce a Lean string literal to a `JStr`. -/
def String.jchars (s : String) : JStr := s.data

/-- Embedding of the JavaScript `\s` character class (the characters matched
by `WHITESPACE_RE = /\s+/` and removed by `String.prototype.trim`), by code
point. -/
def isJsSpace (c : Char) : Bool :=
  c.toNat = 9 || c.toNat = 10 || c.toNat = 11 || c.toNat = 12 || c.toNat = 13 ||
  c.toNat = 32 || c.toNat = 160 || c.toNat = 0x1680 ||
  (0x2000 ≤ c.toNat && c.toNat ≤ 0x200A) || c.toNat = 0x2028 || c.toNat = 0x2029 ||
  c.toNat = 0x202F || c.toNat = 0x205F || c.toNat = 0x3000 || c.toNat = 0xFEFF

/-- The character class `[a-z0-9-]` of `NON_LABEL_RE = /[^a-z0-9-]/g`. -/
def isLabelChar (c : Char) : Bool :=
  (97 ≤ c.toNat && c.toNat ≤ 122) || (48 ≤ c.toNat && c.toNat ≤ 57) || c.toNat = 45

/-- The hyphen test used by `TRIM_HYPHEN_RE = /^-+|-+$/g`. -/
def isHyphen (c : Char) : Bool := decide (c = '-')

/-- Embeds `String.prototype.toLowerCase` on one character (ASCII range; the
sanitizer later removes every character outside `[a-z0-9-]`, so the exotic
Unicode lowercase mappings are irrelevant to the embedded pipeline). -/
def jsToLowerChar (c : Char) : Char :=
  if 65 ≤ c.toNat && c.toNat ≤ 90 then Char.ofNat (c.toNat + 32) else c

/-- Embeds `String.prototype.toLowerCase`. -/
def jsToLower (s : JStr) : JStr := s.map jsToLowerChar

/-- Remove the trailing run of characters satisfying `p`
(the `-+$` half of a trim regex). -/
def dropTrailing (p : Char → Bool) : JStr → JStr
  | [] => []
  | c :: cs =>
    match dropTrailing p cs with
    | [] => if p c then [] else [c]
    | r => c :: r

/-- Embeds `String.prototype.trim`: strip leading and trailing JS whitespace. -/
def jsTrim (s : JStr) : JStr := dropTrailing isJsSpace (s.dropWhile isJsSpace)

/-- Embeds `s.replace(SURROUNDING_QUOTE_RE, "")` with `SURROUNDING_QUOTE_RE = /^"|"$/g`:
a global replace that removes one leading `"` and then one trailing `"` of
what remains. -/
def stripSurroundingQuotes (s : JStr) : JStr :=
  let s1 := match s with
    | c :: cs => if c = '"' then cs else c :: cs
    | [] => []
  match s1.getLast? with
  | some c => if c = '"' then s1.dropLast else s1
  | none => s1

/-- Embeds `s.replace(LEADING_DOTS_RE, "")` with `LEADING_DOTS_RE = /^\.+/`. -/
def stripLeadingDots (s : JStr) : JStr := s.dropWhile (fun c => decide (c = '.'))

/-- Embeds `s.replace(LEADING_DOT_RE, "")` with `LEADING_DOT_RE = /^\./`
(a single leading dot). -/
def stripOneLeadingDot (s : JStr) : JStr :=
  match s with
  | '.' :: cs => cs
  | s => s

/-- Embeds `s.replace(WHITESPACE_RE, "")` with `WHITESPACE_RE = /\s+/`.  The regex
has no `g` flag, so only the first maximal whitespace run is removed. -/
def removeFirstWsRun : JStr → JStr
  | [] => []
  | c :: cs => if isJsSpace c then cs.dropWhile isJsSpace else c :: removeFirstWsRun cs

/-- Embeds `WHITESPACE_RE.test(s)`. -/
def hasWhitespace (s : JStr) : Bool := s.any isJsSpace

/-- Embeds `s.replace(TRIM_HYPHEN_RE, "")` with `TRIM_HYPHEN_RE = /^-+|-+$/g`:
remove the leading and the trailing hyphen run. -/
def trimHyphens (s : JStr) : JStr := dropTrailing isHyphen (s.dropWhile isHyphen)

/-- The sanitizing reassignments of `domainLabelFromTitle` before the final
length cap, composed in source order: lowercase and trim, strip surrounding
quotes, strip leading dots, remove the first whitespace run, drop every
character outside `[a-z0-9-]`, trim leading/trailing hyphens. -/
def sanitizePipeline (input : JStr) : JStr :=
  trimHyphens
    ((removeFirstWsRun (stripLeadingDots (stripSurroundingQuotes
      (jsTrim (jsToLower input))))).filter isLabelChar)

/-- Embeds `domainLabelFromTitle` from the server route: empty input maps to the
empty string; otherwise the sanitizing pipeline runs and the result is
truncated to 63 characters when longer. -/
def domainLabelFromTitle (input : JStr) : JStr :=
  if input = [] then []
  else if 63 < (sanitizePipeline input).length then (sanitizePipeline input).take 63
  else sanitizePipeline input

example : domainLabelFromTitle ("My Cool Idea!!".jchars) = ("mycoolidea".jchars) := by decide
example : domainLabelFromTitle ("\"  .HELLO world-  \"".jchars) = ("helloworld".jchars) := by decide
example : domainLabelFromTitle ("---".jchars) = ("".jchars) := by decide

/-! ## Server label cache and `getSearchLabelFromQuery` -/

/-- One entry of the server's label cache (`labelCache` in the route). -/
structure LabelCacheEntry where
  label : JStr
  ts : Nat
deriving DecidableEq

/-- Embeds `labelCache : Map<string, { label, ts }>`, embedded as an association
list in insertion order. -/
abbrev LabelCache := List (JStr × LabelCacheEntry)

/-- Embeds `Map.prototype.get`. -/
def cacheGet (m : LabelCache) (k : JStr) : Option LabelCacheEntry :=
  (m.find? (fun p => decide (p.1 = k))).map (fun p => p.2)

/-- Embeds `Map.prototype.set`: overwrite an existing key in place, otherwise
append. -/
def cacheSet (m : LabelCache) (k : JStr) (v : LabelCacheEntry) : LabelCache :=
  if m.any (fun p => decide (p.1 = k)) then
    m.map (fun p => if p.1 = k then (k, v) else p)
  else m ++ [(k, v)]

/-- Embeds `LABEL_CACHE_TTL = 1000 * 60 * 10` (milliseconds). -/
def LABEL_CACHE_TTL : Nat := 1000 * 60 * 10

/-- The fixed prompt-based generation step is an external call; its outcome
is passed in as `gen` (`.ok title` for a resolved `generateText`, `.error e`
for a rejected one). -/
abbrev GenOutcome := Except JStr JStr

/-- Embeds `getSearchLabelFromQuery(originalQ, normalizedQ, fallbackLabel = "")`
from the server route, with the label cache, the clock and the generation
outcome made explicit.  Returns the label, the updated cache, and whether
the generation provider was called. -/
def getSearchLabelFromQuery (originalQ normalizedQ fallbackLabel : JStr)
    (cache : LabelCache) (now : Nat) (gen : GenOutcome) :
    JStr × LabelCache × Bool :=
  if hasWhitespace originalQ = false then (normalizedQ, cache, false)
  else
    let freshHit : Option JStr :=
      match cacheGet cache originalQ with
      | some e => if now - e.ts < LABEL_CACHE_TTL then some e.label else none
      | none => none
    match freshHit with
    | some l => (l, cache, false)
    | none =>
      match gen with
      | .ok title =>
        let cleaned := stripSurroundingQuotes (jsTrim title)
        let finalTitle :=
          if 30 < cleaned.length then jsTrim (cleaned.take 27) ++ ("...".jchars)
          else cleaned
        let label := domainLabelFromTitle finalTitle
        if label ≠ [] then (label, cacheSet cache originalQ ⟨label, now⟩, true)
        else
          let fallback :=
            if removeFirstWsRun normalizedQ ≠ [] then removeFirstWsRun normalizedQ
            else fallbackLabel
          (fallback, cacheSet cache originalQ ⟨fallback, now⟩, true)
      | .error _ =>
        let fallback :=
          if removeFirstWsRun normalizedQ ≠ [] then removeFirstWsRun normalizedQ
          else fallbackLabel
        (fallback, cacheSet cache originalQ ⟨fallback, now⟩, true)

example :
    (getSearchLabelFromQuery ("cats".jchars) ("cats".jchars) [] [] 0 (.error ("x".jchars))).1
      = ("cats".jchars) := by decide
example :
    (getSearchLabelFromQuery ("a b c".jchars) ("a b c".jchars) [] [] 0 (.error ("x".jchars))).1
      = ("ab c".jchars) := by decide
example :
    (getSearchLabelFromQuery ("my cool idea".jchars) ("my cool idea".jchars) [] [] 0
      (.ok ("My Cool Idea!!".jchars))).1 = ("mycoolidea".jchars) := by decide

/-! ## TLD candidate selection -/

/-- The fixed priority list `COMMON` from `pickCandidateTlds`. -/
def COMMON : List JStr :=
  [("com".jchars), ("net".jchars), ("org".jchars), ("dev".jchars), ("io".jchars),
   ("app".jchars), ("ai".jchars), ("co".jchars), ("xyz".jchars), ("tech".jchars),
   ("site".jchars), ("online".jchars), ("me".jchars), ("info".jchars), ("store".jchars)]

/-- The accumulation loop of `pickCandidateTlds`: for each priority TLD in
order, append it to `acc` when it occurs in the input and is not yet in
`acc`. -/
def buildPreferred (common : List JStr) (tlds : List JStr) (acc : List JStr) : List JStr :=
  match common with
  | [] => acc
  | c :: cs =>
    if decide (c ∈ tlds) && !decide (c ∈ acc) then buildPreferred cs tlds (acc ++ [c])
    else buildPreferred cs tlds acc

/-- The `preferred` list computed by `pickCandidateTlds`. -/
def preferredTlds (tlds : List JStr) : List JStr := buildPreferred COMMON tlds []

/-- Embeds `pickCandidateTlds(tlds, limit)`: the priority TLDs present in the
input, in priority order, followed by the input TLDs not picked as
priority, truncated to `limit`. -/
def pickCandidateTlds (tlds : List JStr) (limit : Nat) : List JStr :=
  (preferredTlds tlds ++ tlds.filter (fun t => !decide (t ∈ preferredTlds tlds))).take limit

example :
    pickCandidateTlds [("zz".jchars), ("net".jchars), ("com".jchars)] 50
      = [("com".jchars), ("net".jchars), ("zz".jchars)] := by decide
example :
    pickCandidateTlds [("zz".jchars), ("zz".jchars)] 50
      = [("zz".jchars), ("zz".jchars)] := by decide
example : pickCandidateTlds [("zz".jchars), ("net".jchars), ("com".jchars)] 2
      = [("com".jchars), ("net".jchars)] := by decide

/-! ## The `POST /api/search` handler (AI-assisted route) -/

/-- Embeds `TLDS_CACHE_TTL = 1000 * 60 * 5` (milliseconds). -/
def TLDS_CACHE_TTL : Nat := 1000 * 60 * 5

/-- The module-level mutable state of the route: `labelCache` and
`tldsCache`. -/
structure ServerState where
  labelCache : LabelCache
  tldsCache : Option (List JStr × Nat)
deriving DecidableEq

/-- A call to one of the external providers, as observed by the handler. -/
inductive ProviderCall where
  | genCall
  | tldsCall
  | availCall (domains : List JStr)
deriving DecidableEq

/-- The outcomes the two upstream providers and the generation call would
produce if invoked during this request.  The availability payload type `α`
is opaque: the handler returns it unmodified. -/
structure SearchEnv (α : Type) where
  gen : GenOutcome
  tlds : Except JStr (List JStr)
  avail : Except JStr α

/-- The handler's HTTP response: `NextResponse.json({domains: []})` for an
empty query, `NextResponse.json({domains: availability})` on success, and
`NextResponse.json({error: message}, {status})` on failure. -/
inductive SearchResp (α : Type) where
  | okEmpty
  | okDomains (payload : α)
  | err (message : JStr) (status : Nat)

/-- Embeds `getSupportedTlds(teamId)`: serve the cached TLD snapshot while fresh,
otherwise fetch, strip one leading dot from each entry, drop empties, and
store the snapshot.  Returns the result (or the propagated rejection), the
updated state, and whether the provider was called. -/
def getSupportedTlds (st : ServerState) (now : Nat) (envTlds : Except JStr (List JStr)) :
    Except JStr (List JStr) × ServerState × Bool :=
  let freshHit : Option (List JStr) :=
    match st.tldsCache with
    | some (ts, tstamp) => if now - tstamp < TLDS_CACHE_TTL then some ts else none
    | none => none
  match freshHit with
  | some ts => (.ok ts, st, false)
  | none =>
    match envTlds with
    | .error e => (.error e, st, true)
    | .ok lst =>
      let tlds := (lst.map stripOneLeadingDot).filter (fun t => !t.isEmpty)
      (.ok tlds, { st with tldsCache := some (tlds, now) }, true)

/-- Embeds `body.q` after `typeof body.q === "string" ? body.q.trim().toLowerCase() : ""`. -/
def qOfBody : Option JStr → JStr
  | some s => jsToLower (jsTrim s)
  | none => []

/-- Embeds `q.includes(".") && !q.includes(" ")`: the full-domain classification of
the handler.  Note that only the space character is tested, not the whole
whitespace class. -/
def looksLikeDomain (q : JStr) : Bool := q.contains '.' && !(q.contains ' ')

/-- Embeds `buildDomainsToCheck`: the single normalized query in full-domain mode,
else the fan-out `searchLabel.tld` over at most 25 candidate TLDs. -/
def buildDomainsToCheck (looks : Bool) (normalizedQ searchLabel : JStr)
    (tlds : List JStr) : List JStr :=
  if looks then [normalizedQ]
  else (pickCandidateTlds tlds 25).map (fun t => searchLabel ++ '.' :: t)

/-- The `POST` handler of the AI-assisted route: parse `q`, short-circuit on
empty, derive the search label and the TLD set (both awaited together),
classify the query, build the candidate list, and issue the bulk
availability call; any rejection that reaches the handler is caught and
returned as `{error}` with status 500.  Returns the response, the final
module state, and the provider calls made. -/
def POST (α : Type) (bodyQ : Option JStr) (st : ServerState) (env : SearchEnv α)
    (now : Nat) : SearchResp α × ServerState × List ProviderCall :=
  let q := qOfBody bodyQ
  if q = [] then (.okEmpty, st, [])
  else
    let normalizedQ := stripOneLeadingDot q
    let lbl := getSearchLabelFromQuery q normalizedQ [] st.labelCache now env.gen
    let st1 : ServerState := { st with labelCache := lbl.2.1 }
    let tl := getSupportedTlds st1 now env.tlds
    let calls :=
      (if lbl.2.2 then [ProviderCall.genCall] else []) ++
      (if tl.2.2 then [ProviderCall.tldsCall] else [])
    match tl.1 with
    | .error e => (.err e 500, tl.2.1, calls)
    | .ok tlds =>
      let domainsToCheck := buildDomainsToCheck (looksLikeDomain q) normalizedQ lbl.1 tlds
      match env.avail with
      | .error e => (.err e 500, tl.2.1, calls ++ [ProviderCall.availCall domainsToCheck])
      | .ok payload => (.okDomains payload, tl.2.1, calls ++ [ProviderCall.availCall domainsToCheck])

/-- The empty server state (a fresh module instance). -/
def serverInit : ServerState := { labelCache := [], tldsCache := none }

example :
    (POST Nat (some ("   ".jchars)) serverInit ⟨.error ("g".jchars), .ok [], .ok 0⟩ 0).2.2
      = [] := by decide
example :
    (POST Nat (some ("example.com".jchars)) serverInit
      ⟨.error ("g".jchars), .ok [("com".jchars), ("net".jchars)], .ok 7⟩ 0).2.2
      = [ProviderCall.tldsCall, ProviderCall.availCall [("example.com".jchars)]] := by decide
example :
    (POST Nat (some ("my idea".jchars)) serverInit
      ⟨.ok ("coolidea".jchars), .ok [("com".jchars)], .ok 7⟩ 0).2.2
      = [ProviderCall.genCall, ProviderCall.tldsCall,
         ProviderCall.availCall [("coolidea.com".jchars)]] := by decide

/-! ## Client payload normalization (`normalizeDomainPayload`) -/

/-- JavaScript runtime values as seen by the client after `res.json()`,
including `undefined` for absent properties. -/
inductive Json where
  | null
  | undefined
  | bool (b : Bool)
  | num (n : Int)
  | str (s : JStr)
  | arr (elems : List Json)
  | obj (fields : List (JStr × Json))

/-- Property access `o[k]` on an object's field list: the first binding, or
`undefined` when absent. -/
def getField (fields : List (JStr × Json)) (k : JStr) : Json :=
  match fields.find? (fun p => decide (p.1 = k)) with
  | some p => p.2
  | none => .undefined

/-- Embeds `Array.isArray(v) ? v : undefined`, exposing the element list. -/
def Json.asArray? : Json → Option (List Json)
  | .arr xs => some xs
  | _ => none

/-- Embeds `v && typeof v === "object"` (arrays and non-null objects are truthy
objects; `typeof null === "object"` but `null` is falsy). -/
def Json.isTruthyObject : Json → Bool
  | .obj _ => true
  | .arr _ => true
  | _ => false

/-- Property access `v.results` guarded by `v && typeof v === "object"`:
`undefined` unless `v` is a plain object carrying the field (an array's
`results` property is likewise `undefined`). -/
def jsonFieldOfObject (v : Json) (k : JStr) : Json :=
  match v with
  | .obj fields => getField fields k
  | _ => .undefined

/-- Embeds `normalizeDomainPayload(payload)` from the client page: arrays pass
through, primitives and `null`/`undefined` yield `[]`, and for objects the
first array among `payload.results`, `payload.domains` and
`payload.domains.results` wins, else the payload is wrapped. -/
def normalizeDomainPayload (payload : Json) : List Json :=
  match payload with
  | .arr xs => xs
  | _ =>
    if payload.isTruthyObject = false then []
    else
      match payload with
      | .obj fields =>
        match (getField fields ("results".jchars)).asArray? with
        | some xs => xs
        | none =>
          match (getField fields ("domains".jchars)).asArray? with
          | some xs => xs
          | none =>
            match (jsonFieldOfObject (getField fields ("domains".jchars)) ("results".jchars)).asArray? with
            | some xs => xs
            | none => [payload]
      | _ => []

/-- The reading of the claim, stated independently: return the first array
among the candidate values, else the supplied default. -/
def firstArrayAmong (cands : List Json) (dflt : List Json) : List Json :=
  match cands with
  | [] => dflt
  | c :: rest =>
    match c.asArray? with
    | some xs => xs
    | none => firstArrayAmong rest dflt

/-! ## Client search coordinator (`Home` in `src/app/page.tsx`) -/

/-- Embeds `SEARCH_CACHE_TTL = 1000 * 60 * 2` (milliseconds). -/
def SEARCH_CACHE_TTL : Nat := 1000 * 60 * 2

/-- The coordinator's observable state: React state (`q`, `results`,
`loading`), the shareable URL's `q` parameter, the session result cache,
the pending debounce timer with its captured query, the current abort
controller (`fetchAbortRef`) by id, the set of aborted controller ids, the
outstanding fetches, a fresh-id counter and the clock. -/
structure ClientState where
  q : JStr
  results : List Json
  loading : Bool
  urlQ : Option JStr
  cache : List (JStr × List Json × Nat)
  debounce : Option JStr
  inflightId : Option Nat
  aborted : List Nat
  pending : List (Nat × JStr)
  nextId : Nat
  now : Nat

/-- Embeds `searchCacheRef.current.set(query, {results, ts})`. -/
def searchCacheSet (m : List (JStr × List Json × Nat)) (k : JStr) (r : List Json)
    (ts : Nat) : List (JStr × List Json × Nat) :=
  if m.any (fun p => decide (p.1 = k)) then
    m.map (fun p => if p.1 = k then (k, r, ts) else p)
  else m ++ [(k, r, ts)]

/-- Embeds `getCachedSearch`: a hit only while `now - ts < SEARCH_CACHE_TTL`. -/
def searchCacheGet (m : List (JStr × List Json × Nat)) (k : JStr) (now : Nat) :
    Option (List Json) :=
  match m.find? (fun p => decide (p.1 = k)) with
  | some p => if now - p.2.2 < SEARCH_CACHE_TTL then some p.2.1 else none
  | none => none

/-- Events delivered to the coordinator: an input change (with the debounce
effect that follows it), the external clear signal, a debounce-timer
expiry, and the settlement of the fetch with id `id` carrying the server's
JSON body. -/
inductive CEvent where
  | setQuery (s : JStr)
  | clearSignal
  | timerFire
  | respond (id : Nat) (data : Json)

/-- Embeds `fetchAbortRef.current?.abort(); fetchAbortRef.current = null`. -/
def abortInflight (st : ClientState) : ClientState :=
  match st.inflightId with
  | some i => { st with aborted := i :: st.aborted, inflightId := none }
  | none => st

/-- An input change followed by the debounce effect: the previous timer is
always cleared; an empty query synchronously aborts any in-flight request,
empties results, clears loading and removes `q` from the URL; a non-empty
query turns loading on and restarts the 300 ms timer. -/
def stepSetQuery (st : ClientState) (s : JStr) : ClientState :=
  let st1 := { st with q := s, debounce := none }
  if s = [] then
    let st2 := abortInflight st1
    { st2 with results := [], loading := false, urlQ := none }
  else
    { st1 with loading := true, debounce := some s }

/-- The `inputgroup:clear` handler `onClear` (plus the empty-query effect it
triggers): cancel the timer, abort any in-flight request, and reset query,
results, loading and URL. -/
def stepClear (st : ClientState) : ClientState :=
  let st1 := abortInflight { st with debounce := none }
  { st1 with q := [], results := [], loading := false, urlQ := none }

/-- Debounce expiry: abort the previous request, allocate a fresh
controller, and run `runSearch`: a fresh cache hit renders immediately and
synchronizes the URL; a miss issues the fetch. -/
def stepTimerFire (st : ClientState) : ClientState :=
  match st.debounce with
  | none => st
  | some s =>
    let st1 := abortInflight { st with debounce := none }
    let id := st1.nextId
    let st2 := { st1 with nextId := id + 1, inflightId := some id }
    match searchCacheGet st2.cache s st2.now with
    | some r => { st2 with results := r, loading := false, urlQ := some s }
    | none => { st2 with pending := st2.pending ++ [(id, s)] }

/-- Embeds `data?.domains ?? data ?? []` applied to the parsed response body. -/
def payloadOf (data : Json) : Json :=
  let d :=
    match data with
    | .obj fields => getField fields ("domains".jchars)
    | _ => .undefined
  let d2 :=
    match d with
    | .undefined => data
    | .null => data
    | d => d
  match d2 with
  | .undefined => .arr []
  | .null => .arr []
  | d2 => d2

/-- Settlement of fetch `id`: an aborted fetch resolves to `[]` inside
`fetchDomains`; `runSearch` then unconditionally stores the result in the
session cache, clears `fetchAbortRef` when it still points at this
controller, sets the results, clears loading, and rewrites the URL to the
request's query. -/
def stepRespond (st : ClientState) (id : Nat) (data : Json) : ClientState :=
  match st.pending.find? (fun p => decide (p.1 = id)) with
  | none => st
  | some pr =>
    let s := pr.2
    let st1 := { st with pending := st.pending.filter (fun p => !decide (p.1 = id)) }
    let r := if st1.aborted.contains id then [] else normalizeDomainPayload (payloadOf data)
    let st2 := { st1 with cache := searchCacheSet st1.cache s r st1.now }
    let st3 := if st2.inflightId = some id then { st2 with inflightId := none } else st2
    { st3 with results := r, loading := false, urlQ := some s }

/-- One coordinator step. -/
def stepEvent (st : ClientState) : CEvent → ClientState
  | .setQuery s => stepSetQuery st s
  | .clearSignal => stepClear st
  | .timerFire => stepTimerFire st
  | .respond id data => stepRespond st id data

/-- Run a sequence of events. -/
def runTrace (st : ClientState) (evs : List CEvent) : ClientState :=
  evs.foldl stepEvent st

/-- The coordinator's initial state (mount with no `q` URL parameter). -/
def clientInit : ClientState :=
  { q := [], results := [], loading := false, urlQ := none, cache := [],
    debounce := none, inflightId := none, aborted := [], pending := [],
    nextId := 0, now := 0 }

/-- Whether the session cache holds an entry for `k` whose result list is
empty. -/
def cacheEntryIsEmpty (st : ClientState) (k : JStr) : Bool :=
  match st.cache.find? (fun p => decide (p.1 = k)) with
  | some p => p.2.1.isEmpty
  | none => false

example :
    (runTrace clientInit
      [.setQuery ("cats".jchars), .timerFire, .respond 0 (Json.arr [Json.str ("cats.com".jchars)])]).loading
      = false := by decide
example :
    (runTrace clientInit
      [.setQuery ("cats".jchars), .timerFire, .respond 0 (Json.arr [Json.str ("cats.com".jchars)])]).urlQ
      = some ("cats".jchars) := by decide
example :
    (runTrace clientInit
      [.setQuery ("cats".jchars), .timerFire, .respond 0 (Json.arr [Json.str ("cats.com".jchars)])]).results.length
      = 1 := by decide

/-! ## Character-class facts -/

theorem label_not_space {c : Char} (h : isLabelChar c = true) : isJsSpace c = false := by
  simp only [isLabelChar, Bool.or_eq_true, Bool.and_eq_true, decide_eq_true_eq] at h
  simp only [isJsSpace, Bool.or_eq_true, Bool.and_eq_true, decide_eq_true_eq]
  rw [Bool.eq_false_iff]
  simp only [ne_eq, Bool.or_eq_true, Bool.and_eq_true, decide_eq_true_eq]
  omega

theorem label_lower_fix {c : Char} (h : isLabelChar c = true) : jsToLowerChar c = c := by
  simp only [isLabelChar, Bool.or_eq_true, Bool.and_eq_true, decide_eq_true_eq] at h
  unfold jsToLowerChar
  rw [if_neg]
  simp only [Bool.and_eq_true, decide_eq_true_eq, not_and]
  omega

theorem label_ne_quote {c : Char} (h : isLabelChar c = true) : ¬ c = '"' := by
  intro hc
  rw [hc] at h
  exact absurd h (by decide)

theorem label_ne_dot {c : Char} (h : isLabelChar c = true) : ¬ c = '.' := by
  intro hc
  rw [hc] at h
  exact absurd h (by decide)

/-! ## List helper lemmas -/

theorem mem_of_head?Eq {l : JStr} {c : Char} (h : l.head? = some c) : c ∈ l := by
  cases l with
  | nil => simp at h
  | cons a t => simp at h; simp [h]

theorem mem_of_getLast?Eq {l : JStr} {c : Char} (h : l.getLast? = some c) : c ∈ l := by
  induction l with
  | nil => simp at h
  | cons a t ih =>
    cases t with
    | nil => simp at h; simp [h]
    | cons b r =>
      rw [List.getLast?_cons_cons] at h
      exact List.mem_cons_of_mem a (ih h)

theorem dropTrailing_mem {p : Char → Bool} {l : JStr} {c : Char}
    (h : c ∈ dropTrailing p l) : c ∈ l := by
  induction l with
  | nil => simp [dropTrailing] at h
  | cons a t ih =>
    rw [dropTrailing] at h
    cases hdt : dropTrailing p t with
    | nil =>
      rw [hdt] at h
      by_cases hp : p a
      · simp [hp] at h
      · simp [hp] at h
        simp [h]
    | cons b r =>
      rw [hdt] at h
      simp only [List.mem_cons] at h
      rcases h with h1 | h2
      · simp [h1]
      · exact List.mem_cons_of_mem a (ih (hdt ▸ List.mem_cons.mpr h2))

theorem dropTrailing_head? {p : Char → Bool} {l : JStr} {c : Char}
    (h : (dropTrailing p l).head? = some c) : l.head? = some c := by
  cases l with
  | nil => simp [dropTrailing] at h
  | cons a t =>
    rw [dropTrailing] at h
    cases hdt : dropTrailing p t with
    | nil =>
      rw [hdt] at h
      by_cases hp : p a
      · simp [hp] at h
      · simp [hp] at h
        simp [h]
    | cons b r =>
      rw [hdt] at h
      simp at h
      simp [h]

theorem dropTrailing_getLast? {p : Char → Bool} {l : JStr} {c : Char}
    (h : (dropTrailing p l).getLast? = some c) : p c = false := by
  induction l with
  | nil => simp [dropTrailing] at h
  | cons a t ih =>
    rw [dropTrailing] at h
    cases hdt : dropTrailing p t with
    | nil =>
      rw [hdt] at h
      by_cases hp : p a
      · simp [hp] at h
      · simp [hp] at h
        rw [← h]
        simpa using hp
    | cons b r =>
      rw [hdt] at h
      rw [List.getLast?_cons_cons] at h
      exact ih (hdt ▸ h)

theorem dropTrailing_eq_self {p : Char → Bool} {l : JStr}
    (h : ∀ c, l.getLast? = some c → p c = false) : dropTrailing p l = l := by
  induction l with
  | nil => rfl
  | cons a t ih =>
    rw [dropTrailing]
    cases t with
    | nil =>
      have := h a (by simp)
      simp [dropTrailing, this]
    | cons b r =>
      have ht : dropTrailing p (b :: r) = b :: r := by
        apply ih
        intro c hc
        exact h c (by rw [List.getLast?_cons_cons]; exact hc)
      rw [ht]

theorem dropWhile_head?Not {p : Char → Bool} {l : JStr} {c : Char}
    (h : (List.dropWhile p l).head? = some c) : p c = false := by
  induction l with
  | nil => simp at h
  | cons a t ih =>
    rw [List.dropWhile_cons] at h
    by_cases hp : p a
    · simp [hp] at h
      exact ih h
    · simp [hp] at h
      rw [← h]
      simpa using hp

theorem dropWhile_eq_self {p : Char → Bool} {l : JStr}
    (h : ∀ c, l.head? = some c → p c = false) : List.dropWhile p l = l := by
  cases l with
  | nil => rfl
  | cons a t =>
    rw [List.dropWhile_cons, if_neg]
    simp [h a rfl]

theorem removeFirstWsRun_eq_self {l : JStr} (h : ∀ c ∈ l, isJsSpace c = false) :
    removeFirstWsRun l = l := by
  induction l with
  | nil => rfl
  | cons a t ih =>
    rw [removeFirstWsRun, if_neg]
    · rw [ih (fun c hc => h c (List.mem_cons_of_mem a hc))]
    · simp [h a (List.mem_cons_self a t)]

theorem map_eq_self_of {f : Char → Char} {l : JStr} (h : ∀ c ∈ l, f c = c) :
    l.map f = l := by
  induction l with
  | nil => rfl
  | cons a t ih =>
    rw [List.map_cons, h a (List.mem_cons_self a t),
      ih (fun c hc => h c (List.mem_cons_of_mem a hc))]

/-! ## Facts about the sanitizer output -/

theorem sanitize_chars (x : JStr) : ∀ c ∈ sanitizePipeline x, isLabelChar c = true := by
  intro c hc
  unfold sanitizePipeline trimHyphens at hc
  have h1 := (List.dropWhile_sublist _).subset (dropTrailing_mem hc)
  exact (List.mem_filter.mp h1).2

theorem sanitize_head {x : JStr} {c : Char}
    (h : (sanitizePipeline x).head? = some c) : isHyphen c = false := by
  unfold sanitizePipeline trimHyphens at h
  exact dropWhile_head?Not (dropTrailing_head? h)

theorem sanitize_last {x : JStr} {c : Char}
    (h : (sanitizePipeline x).getLast? = some c) : isHyphen c = false := by
  unfold sanitizePipeline trimHyphens at h
  exact dropTrailing_getLast? h

theorem domainLabel_chars (x : JStr) :
    ∀ c ∈ domainLabelFromTitle x, isLabelChar c = true := by
  intro c hc
  unfold domainLabelFromTitle at hc
  split at hc
  · simp at hc
  · split at hc
    · exact sanitize_chars x c ((List.take_sublist _ _).subset hc)
    · exact sanitize_chars x c hc

theorem domainLabel_head {x : JStr} {c : Char}
    (h : (domainLabelFromTitle x).head? = some c) : isHyphen c = false := by
  unfold domainLabelFromTitle at h
  split at h
  · simp at h
  · split at h
    · rw [List.head?_take] at h
      simp only [OfNat.ofNat_ne_zero, if_false] at h
      exact sanitize_head h
    · exact sanitize_head h

theorem domainLabel_len (x : JStr) : (domainLabelFromTitle x).length ≤ 63 := by
  unfold domainLabelFromTitle
  split
  · simp
  · split
    · rw [List.length_take, inf_eq_min]
      omega
    · omega

theorem domainLabel_last_of_lt {x : JStr} {c : Char}
    (hl : (domainLabelFromTitle x).length < 63)
    (h : (domainLabelFromTitle x).getLast? = some c) : isHyphen c = false := by
  unfold domainLabelFromTitle at hl h
  by_cases hx : x = []
  · rw [if_pos hx] at h
    simp at h
  · rw [if_neg hx] at hl h
    by_cases h63 : 63 < (sanitizePipeline x).length
    · rw [if_pos h63] at hl
      rw [List.length_take, inf_eq_min] at hl
      omega
    · rw [if_neg h63] at h
      exact sanitize_last h

theorem sanitize_fixed (y : JStr)
    (hmem : ∀ c ∈ y, isLabelChar c = true)
    (hhead : ∀ c, y.head? = some c → isHyphen c = false)
    (hlast : ∀ c, y.getLast? = some c → isHyphen c = false)
    (hlen : y.length ≤ 63) :
    domainLabelFromTitle y = y := by
  by_cases hy : y = []
  · rw [hy]; rfl
  · have hlow : jsToLower y = y :=
      map_eq_self_of (fun c hc => label_lower_fix (hmem c hc))
    have htrim : jsTrim y = y := by
      unfold jsTrim
      rw [dropWhile_eq_self (fun c hc => label_not_space (hmem c (mem_of_head?Eq hc)))]
      exact dropTrailing_eq_self
        (fun c hc => label_not_space (hmem c (mem_of_getLast?Eq hc)))
    have hquote : stripSurroundingQuotes y = y := by
      cases y with
      | nil => rfl
      | cons a t =>
        unfold stripSurroundingQuotes
        dsimp only
        rw [if_neg (label_ne_quote (hmem a (List.mem_cons_self a t)))]
        cases hg : (a :: t).getLast? with
        | none => rfl
        | some d =>
          dsimp only
          rw [if_neg (label_ne_quote (hmem d (mem_of_getLast?Eq hg)))]
    have hdots : stripLeadingDots y = y := by
      unfold stripLeadingDots
      apply dropWhile_eq_self
      intro c hc
      simp [label_ne_dot (hmem c (mem_of_head?Eq hc))]
    have hws : removeFirstWsRun y = y :=
      removeFirstWsRun_eq_self (fun c hc => label_not_space (hmem c hc))
    have hfil : y.filter isLabelChar = y := List.filter_eq_self.mpr hmem
    have hhyp : trimHyphens y = y := by
      unfold trimHyphens
      rw [dropWhile_eq_self hhead]
      exact dropTrailing_eq_self hlast
    have hpipe : sanitizePipeline y = y := by
      unfold sanitizePipeline
      rw [hlow, htrim, hquote, hdots, hws, hfil, hhyp]
    unfold domainLabelFromTitle
    rw [if_neg hy, hpipe, if_neg (by omega)]

/-! ## Facts about `pickCandidateTlds` -/

theorem buildPreferred_filter (common tlds acc : List JStr) (hnd : common.Nodup)
    (hdisj : ∀ c ∈ common, c ∉ acc) :
    buildPreferred common tlds acc = acc ++ common.filter (fun c => decide (c ∈ tlds)) := by
  induction common generalizing acc with
  | nil => simp [buildPreferred]
  | cons c cs ih =>
    rw [buildPreferred]
    rcases List.nodup_cons.mp hnd with ⟨hcn, hcs⟩
    by_cases hmemt : c ∈ tlds
    · rw [if_pos]
      · rw [ih (acc ++ [c]) hcs]
        · simp [hmemt]
        · intro d hd
          simp only [List.mem_append, List.mem_singleton]
          rintro (hda | hdc)
          · exact hdisj d (List.mem_cons_of_mem c hd) hda
          · exact hcn (hdc ▸ hd)
      · simp [hmemt, hdisj c (List.mem_cons_self c cs)]
    · rw [if_neg]
      · rw [ih acc hcs (fun d hd => hdisj d (List.mem_cons_of_mem c hd))]
        simp [hmemt]
      · simp [hmemt]

theorem preferredTlds_eq (tlds : List JStr) :
    preferredTlds tlds = COMMON.filter (fun c => decide (c ∈ tlds)) := by
  unfold preferredTlds
  rw [buildPreferred_filter COMMON tlds [] (by decide) (by simp)]
  simp

theorem pickCandidateTlds_len (tlds : List JStr) (limit : Nat) :
    (pickCandidateTlds tlds limit).length ≤ limit := by
  unfold pickCandidateTlds
  rw [List.length_take, inf_eq_min]
  omega

theorem pickCandidateTlds_nodup (tlds : List JStr) (limit : Nat) (h : tlds.Nodup) :
    (pickCandidateTlds tlds limit).Nodup := by
  unfold pickCandidateTlds
  apply List.Sublist.nodup (List.take_sublist _ _)
  apply List.Nodup.append
  · rw [preferredTlds_eq]
    exact List.Nodup.filter _ (by decide)
  · exact List.Nodup.filter _ h
  · intro a ha hb
    have := (List.mem_filter.mp hb).2
    simp only [Bool.not_eq_true', decide_eq_false_iff_not] at this
    exact this ha

/-! ## Claim theorems -/

/-- A 64-character title whose sanitized form is cut inside a hyphen run by
the 63-character cap. -/
def longTitle : JStr := List.replicate 62 'a' ++ ['-', 'b']

/-- C3: the claim that `domainLabelFromTitle` is idempotent for every
string fails: on `longTitle` the truncation to 63 characters leaves a
trailing hyphen, which a second application strips away. -/
theorem c3_counterexample :
    domainLabelFromTitle (domainLabelFromTitle longTitle) ≠ domainLabelFromTitle longTitle := by
  decide

/-- C3 (amended): `domainLabelFromTitle` is idempotent on every input whose
output does not end in a hyphen — equivalently, whenever the 63-character
truncation does not cut inside a hyphen run. -/
theorem c3_idempotent (x : JStr)
    (h : ∀ c, (domainLabelFromTitle x).getLast? = some c → c ≠ '-') :
    domainLabelFromTitle (domainLabelFromTitle x) = domainLabelFromTitle x :=
  sanitize_fixed (domainLabelFromTitle x) (domainLabel_chars x)
    (fun _ hc => domainLabel_head hc)
    (fun c hc => by
      simp only [isHyphen, decide_eq_false_iff_not]
      exact h c hc)
    (domainLabel_len x)

/-- Witness for C3 (amended) at the concrete title from the specification's
example. -/
theorem c3_idempotent_witness :
    domainLabelFromTitle (domainLabelFromTitle ("My Cool Idea!!".jchars))
      = domainLabelFromTitle ("My Cool Idea!!".jchars) :=
  c3_idempotent ("My Cool Idea!!".jchars) (by
    intro c hc
    rw [show (domainLabelFromTitle ("My Cool Idea!!".jchars)).getLast? = some 'a' from by decide]
      at hc
    injection hc with h
    rw [← h]
    decide)

/-- C4: the claim that the output never ends in a hyphen fails: on
`longTitle` the sanitized string is truncated to exactly 63 characters and
ends in a hyphen. -/
theorem c4_counterexample :
    (domainLabelFromTitle longTitle).getLast? = some '-'
  ∧ (domainLabelFromTitle longTitle).length = 63 := by
  decide

/-- C4 (amended): for every input, `domainLabelFromTitle` yields at most 63
characters drawn from `[a-z0-9-]` (hence no dot anywhere), never starts
with a hyphen or a dot, and never ends with a hyphen unless the result was
truncated to exactly 63 characters. -/
theorem c4_label_shape (x : JStr) :
    (domainLabelFromTitle x).length ≤ 63
  ∧ (∀ c ∈ domainLabelFromTitle x, isLabelChar c = true)
  ∧ (∀ c, (domainLabelFromTitle x).head? = some c → c ≠ '-' ∧ c ≠ '.')
  ∧ ((domainLabelFromTitle x).length < 63 →
      ∀ c, (domainLabelFromTitle x).getLast? = some c → c ≠ '-') := by
  refine ⟨domainLabel_len x, domainLabel_chars x, ?_, ?_⟩
  · intro c hc
    constructor
    · have := domainLabel_head hc
      simp only [isHyphen, decide_eq_false_iff_not] at this
      exact this
    · exact label_ne_dot (domainLabel_chars x c (mem_of_head?Eq hc))
  · intro hlt c hc
    have := domainLabel_last_of_lt hlt hc
    simp only [isHyphen, decide_eq_false_iff_not] at this
    exact this

/-- Witness for C4 (amended) at the specification's example title. -/
theorem c4_label_shape_witness :
    (domainLabelFromTitle ("My Cool Idea!!".jchars)).head? = some 'm'
  ∧ ('m' ≠ '-' ∧ 'm' ≠ '.') :=
  ⟨by decide, (c4_label_shape ("My Cool Idea!!".jchars)).2.2.1 'm' (by decide)⟩

/-- C6: the claim that the output never contains duplicates fails for
inputs that themselves contain a duplicated non-priority TLD: the
duplicates survive the filter and the truncation. -/
theorem c6_counterexample :
    pickCandidateTlds [("zz".jchars), ("zz".jchars)] 50 = [("zz".jchars), ("zz".jchars)]
  ∧ ¬ (pickCandidateTlds [("zz".jchars), ("zz".jchars)] 50).Nodup := by
  decide

/-- C6 (amended): for every input TLD list and limit, `pickCandidateTlds`
returns at most `limit` entries, equal to the priority TLDs present in the
input in priority order followed by the remaining input TLDs in their
original order, truncated to `limit`; the output has no duplicates provided
the input has none. -/
theorem c6_pick_shape (tlds : List JStr) (limit : Nat) (h : tlds.Nodup) :
    (pickCandidateTlds tlds limit).length ≤ limit
  ∧ (pickCandidateTlds tlds limit).Nodup
  ∧ pickCandidateTlds tlds limit =
      (COMMON.filter (fun c => decide (c ∈ tlds)) ++
        tlds.filter (fun t => !decide (t ∈ COMMON.filter (fun c => decide (c ∈ tlds))))).take
        limit := by
  refine ⟨pickCandidateTlds_len tlds limit, pickCandidateTlds_nodup tlds limit h, ?_⟩
  unfold pickCandidateTlds
  rw [preferredTlds_eq]

/-- Witness for C6 (amended) on a concrete duplicate-free TLD list. -/
theorem c6_pick_shape_witness :
    List.Nodup [("zz".jchars), ("com".jchars)]
  ∧ (pickCandidateTlds [("zz".jchars), ("com".jchars)] 50).length ≤ 50
  ∧ (pickCandidateTlds [("zz".jchars), ("com".jchars)] 50).Nodup :=
  ⟨by decide, (c6_pick_shape [("zz".jchars), ("com".jchars)] 50 (by decide)).1,
    (c6_pick_shape [("zz".jchars), ("com".jchars)] 50 (by decide)).2.1⟩

/-- C2: on the failure path for the multi-word query `"a b c"`, the
fallback `normalizedQ.replace(WHITESPACE_RE, "")` removes only the first
whitespace run (the regex has no global flag), so the stored and returned
label `"ab c"` still contains whitespace instead of the whitespace-stripped
`"abc"` the claim (and the spec) require; the caching of the fallback and
the suppression of a second generation call within the TTL do hold. -/
theorem c2_fallback_eval :
    (getSearchLabelFromQuery ("a b c".jchars) ("a b c".jchars) [] [] 0
      (.error ("boom".jchars))).1 = ("ab c".jchars)
  ∧ hasWhitespace
      (getSearchLabelFromQuery ("a b c".jchars) ("a b c".jchars) [] [] 0
        (.error ("boom".jchars))).1 = true
  ∧ (getSearchLabelFromQuery ("a b c".jchars) ("a b c".jchars) [] [] 0
      (.error ("boom".jchars))).1
      ≠ ("a b c".jchars).filter (fun c => !isJsSpace c)
  ∧ cacheGet
      (getSearchLabelFromQuery ("a b c".jchars) ("a b c".jchars) [] [] 0
        (.error ("boom".jchars))).2.1 ("a b c".jchars) = some ⟨("ab c".jchars), 0⟩
  ∧ (getSearchLabelFromQuery ("a b c".jchars) ("a b c".jchars) [] [] 0
      (.error ("boom".jchars))).2.2 = true
  ∧ (getSearchLabelFromQuery ("a b c".jchars) ("a b c".jchars) []
      (getSearchLabelFromQuery ("a b c".jchars) ("a b c".jchars) [] [] 0
        (.error ("boom".jchars))).2.1 5 (.error ("boom2".jchars))).2.2 = false := by
  decide

/-- C10: `normalizeDomainPayload` is total and matches its claimed case
analysis: arrays pass through unchanged, `null`/`undefined`/primitives
yield the empty list, and for objects the first array among
`payload.results`, `payload.domains` and `payload.domains.results` is
returned, any other object being wrapped in a one-element list. -/
theorem c10_normalize_shape (p : Json) :
    (∀ xs, p = Json.arr xs → normalizeDomainPayload p = xs)
  ∧ ((p = Json.null ∨ p = Json.undefined ∨ (∃ b, p = Json.bool b) ∨ (∃ n, p = Json.num n) ∨
      (∃ s, p = Json.str s)) → normalizeDomainPayload p = [])
  ∧ (∀ fields, p = Json.obj fields → normalizeDomainPayload p =
      firstArrayAmong
        [getField fields ("results".jchars), getField fields ("domains".jchars),
         jsonFieldOfObject (getField fields ("domains".jchars)) ("results".jchars)]
        [p]) := by
  refine ⟨?_, ?_, ?_⟩
  · intro xs h
    rw [h]
    rfl
  · intro h
    rcases h with h | h | ⟨b, h⟩ | ⟨n, h⟩ | ⟨s, h⟩ <;> rw [h] <;> rfl
  · intro fields h
    subst h
    cases h1 : (getField fields ("results".jchars)).asArray? <;>
      cases h2 : (getField fields ("domains".jchars)).asArray? <;>
        cases h3 : (jsonFieldOfObject (getField fields ("domains".jchars))
            ("results".jchars)).asArray? <;>
          simp [normalizeDomainPayload, firstArrayAmong, Json.isTruthyObject, h1, h2, h3]

/-- A server error body, as wrapped by the claim's last case. -/
def errorBody : Json := Json.obj [("error".jchars, Json.str ("x".jchars))]

/-- Witness for C10 at a concrete error-body object. -/
theorem c10_normalize_shape_witness :
    normalizeDomainPayload errorBody = [errorBody] :=
  ((c10_normalize_shape errorBody).2.2 _ rfl).trans (by rfl)

/-- C5: the claim's classification "iff it contains a dot and contains no
whitespace" fails: the handler only tests the space character, so the query
`"a.b\tc"` (which contains a tab) is classified full-domain and a single
candidate is sent to the availability check. -/
theorem c5_counterexample :
    looksLikeDomain ("a.b\tc".jchars) = true
  ∧ hasWhitespace ("a.b\tc".jchars) = true
  ∧ ProviderCall.availCall [("a.b\tc".jchars)] ∈
      (POST Nat (some ("a.b\tc".jchars)) serverInit
        ⟨.error ("g".jchars), .ok [("com".jchars)], .ok 0⟩ 0).2.2 := by
  decide

/-- C5 (amended): the handler classifies a trimmed, lowercased, non-empty
query as full-domain mode iff it contains a dot and no space character
(U+0020); in that mode the bulk-availability call carries exactly one
candidate, the normalized query itself, for every TLD list the provider
returns. -/
theorem c5_full_domain (α : Type) (bodyQ : Option JStr) (st : ServerState)
    (env : SearchEnv α) (now : Nat) (ts : List JStr)
    (hq : qOfBody bodyQ ≠ [])
    (hdot : (qOfBody bodyQ).contains '.' = true)
    (hnsp : (qOfBody bodyQ).contains ' ' = false)
    (hcold : st.tldsCache = none)
    (hts : env.tlds = .ok ts) :
    ProviderCall.availCall [stripOneLeadingDot (qOfBody bodyQ)] ∈ (POST α bodyQ st env now).2.2
  ∧ ∀ d, ProviderCall.availCall d ∈ (POST α bodyQ st env now).2.2 →
      d = [stripOneLeadingDot (qOfBody bodyQ)] := by
  have hlooks : looksLikeDomain (qOfBody bodyQ) = true := by
    unfold looksLikeDomain
    rw [hdot, hnsp]
    rfl
  unfold POST
  rw [if_neg hq]
  unfold getSupportedTlds
  try dsimp only
  rw [hcold, hts]
  try dsimp only
  unfold buildDomainsToCheck
  rw [hlooks]
  try dsimp only
  cases hgen : (getSearchLabelFromQuery (qOfBody bodyQ)
      (stripOneLeadingDot (qOfBody bodyQ)) [] st.labelCache now env.gen).2.2 <;>
    cases havail : env.avail <;>
      constructor <;>
        simp_all

/-- Witness for C5 (amended) at the specification's end-to-end example
query. -/
theorem c5_full_domain_witness :
    ProviderCall.availCall [("example.com".jchars)] ∈
      (POST Nat (some ("example.com".jchars)) serverInit
        ⟨.error ("g".jchars), .ok [("com".jchars), ("net".jchars)], .ok 7⟩ 0).2.2 :=
  (c5_full_domain Nat (some ("example.com".jchars)) serverInit
    ⟨.error ("g".jchars), .ok [("com".jchars), ("net".jchars)], .ok 7⟩ 0
    [("com".jchars), ("net".jchars)] (by decide) (by decide) (by decide) rfl rfl).1

/-- C8: a request body whose `q`, after trimming, is empty yields the
success response `{domains: []}`, leaves the module state untouched, and
issues no provider call whatsoever. -/
theorem c8_empty_query (α : Type) (bodyQ : Option JStr) (st : ServerState)
    (env : SearchEnv α) (now : Nat) (h : qOfBody bodyQ = []) :
    POST α bodyQ st env now = (.okEmpty, st, []) := by
  unfold POST
  rw [h]
  rfl

/-- Witness for C8 at a whitespace-only body. -/
theorem c8_empty_query_witness :
    POST Nat (some ("   ".jchars)) serverInit
      ⟨.error ("g".jchars), .ok [("com".jchars)], .ok 0⟩ 7 = (.okEmpty, serverInit, []) :=
  c8_empty_query Nat (some ("   ".jchars)) serverInit
    ⟨.error ("g".jchars), .ok [("com".jchars)], .ok 0⟩ 7 (by decide)

/-- C9: when an awaited upstream step that reaches the handler fails — the
supported-TLD fetch on a cold cache, or the bulk-availability call — the
handler returns `{error}` with status 500, and an upstream failure is never
surfaced as a success response (empty or otherwise). -/
theorem c9_upstream_error (α : Type) (bodyQ : Option JStr) (st : ServerState)
    (env : SearchEnv α) (now : Nat)
    (hq : qOfBody bodyQ ≠ []) (hcold : st.tldsCache = none) :
    (∀ e, env.tlds = .error e → (POST α bodyQ st env now).1 = .err e 500)
  ∧ (∀ e ts, env.tlds = .ok ts → env.avail = .error e →
      (POST α bodyQ st env now).1 = .err e 500)
  ∧ (((∃ e, env.tlds = .error e) ∨ (∃ e, env.avail = .error e)) →
      (POST α bodyQ st env now).1 ≠ .okEmpty ∧
        ∀ pay, (POST α bodyQ st env now).1 ≠ .okDomains pay) := by
  refine ⟨?_, ?_, ?_⟩
  · intro e he
    unfold POST
    rw [if_neg hq]
    unfold getSupportedTlds
    dsimp only
    rw [hcold, he]
  · intro e ts hts havail
    unfold POST
    rw [if_neg hq]
    unfold getSupportedTlds
    dsimp only
    rw [hcold, hts]
    dsimp only
    rw [havail]
  · intro hfail
    cases hts : env.tlds with
    | error e =>
      have h1 : (POST α bodyQ st env now).1 = .err e 500 := by
        unfold POST
        rw [if_neg hq]
        unfold getSupportedTlds
        dsimp only
        rw [hcold, hts]
      rw [h1]
      exact ⟨by simp, fun pay => by simp⟩
    | ok ts =>
      cases havail : env.avail with
      | error e =>
        have h2 : (POST α bodyQ st env now).1 = .err e 500 := by
          unfold POST
          rw [if_neg hq]
          unfold getSupportedTlds
          dsimp only
          rw [hcold, hts]
          dsimp only
          rw [havail]
        rw [h2]
        exact ⟨by simp, fun pay => by simp⟩
      | ok pay =>
        rcases hfail with ⟨e, he⟩ | ⟨e, he⟩
        · rw [hts] at he
          exact absurd he (by simp)
        · rw [havail] at he
          exact absurd he (by simp)

/-- Witness for C9: a failing availability provider on a concrete query
produces the 500 error response. -/
theorem c9_upstream_error_witness :
    (POST Nat (some ("cats".jchars)) serverInit
      ⟨.error ("g".jchars), .ok [("com".jchars)], .error ("down".jchars)⟩ 0).1
      = .err ("down".jchars) 500 :=
  (c9_upstream_error Nat (some ("cats".jchars)) serverInit
    ⟨.error ("g".jchars), .ok [("com".jchars)], .error ("down".jchars)⟩ 0
    (by decide) rfl).2.1 ("down".jchars) [("com".jchars)] rfl rfl

/-- The overlapping-search scenario of the claim: search `"cats"`, let its
request go out, then search `"cats and dogs"` (which aborts the first
request), and let the superseded first response settle. -/
def supersededTrace : List CEvent :=
  [.setQuery ("cats".jchars), .timerFire, .setQuery ("cats and dogs".jchars), .timerFire,
   .respond 0 Json.null]

/-- C1: the claim fails on the code: `runSearch` stores and applies its
result unconditionally after the await, so the superseded `"cats"`
completion — while the newer request is still pending — caches an empty
result set for `"cats"`, empties the displayed results, clears the loading
flag set by the newer search, and rewrites the URL parameter to the stale
query (before the respond event, none of these mutations had happened). -/
theorem c1_superseded_mutates :
    (runTrace clientInit supersededTrace).pending.length = 1
  ∧ (runTrace clientInit supersededTrace).loading = false
  ∧ (runTrace clientInit supersededTrace).urlQ = some ("cats".jchars)
  ∧ cacheEntryIsEmpty (runTrace clientInit supersededTrace) ("cats".jchars) = true
  ∧ (runTrace clientInit supersededTrace).results.isEmpty = true
  ∧ (runTrace clientInit (supersededTrace.take 4)).loading = true
  ∧ (runTrace clientInit (supersededTrace.take 4)).urlQ = none
  ∧ cacheEntryIsEmpty (runTrace clientInit (supersededTrace.take 4)) ("cats".jchars)
      = false := by
  decide

/-- The clear scenario of the claim: search `"cats"`, let the request go
out, clear the query, then let the aborted in-flight response settle. -/
def clearTrace : List CEvent :=
  [.setQuery ("cats".jchars), .timerFire, .clearSignal]

/-- C7: clearing does synchronously cancel the timer, abort the in-flight
request, empty the results, clear loading and remove the URL parameter
without issuing a network call — but the final clause of the claim fails:
when the previously in-flight (aborted) response settles afterwards,
`runSearch` rewrites the URL parameter back to the stale query. -/
theorem c7_clear_then_stale_response :
    (runTrace clientInit clearTrace).results.isEmpty = true
  ∧ (runTrace clientInit clearTrace).loading = false
  ∧ (runTrace clientInit clearTrace).urlQ = none
  ∧ (runTrace clientInit clearTrace).debounce = none
  ∧ (runTrace clientInit clearTrace).inflightId = none
  ∧ (runTrace clientInit clearTrace).pending
      = (runTrace clientInit (clearTrace.take 2)).pending
  ∧ (runTrace clientInit (clearTrace ++ [.respond 0 Json.null])).urlQ
      = some ("cats".jchars) := by
  decide
